import Mathlib

/-!
Shallow embedding of the quote-acquisition pipeline of the quote-generator
application (src/script.js): the persistent quote cache, the static fallback
dataset loader, the relay-chained fetcher, the translation adapter and the
orchestrator, together with proofs of the specified properties.

JavaScript values that may be `undefined` are modelled as `Option`;
JavaScript exceptions are modelled with `Except`.  Randomness
(`Math.floor(Math.random() * length)`, always a number in `[0, length)`)
is supplied from outside as a natural number reduced modulo the length.
Network interaction is supplied from outside as explicit environment values
describing what each `fetch` call would observe.
-/

namespace QuoteGen

/-- Configuration constant `CONFIG.maxCacheSize` from src/script.js. -/
def CONFIG.maxCacheSize : Nat := 100

/-- A quote object as the application manipulates it: a JavaScript object
with (possibly missing) `text` and `author` fields. -/
structure Quote where
  text : Option String
  author : Option String
deriving DecidableEq, Repr

/-- A record of the ZenQuotes wire schema: fields `q` and `a`, either of
which may be missing. -/
structure ZenRecord where
  q : Option String
  a : Option String
deriving DecidableEq, Repr

/-! ## Persistent Quote Cache (`saveQuoteToCache`, `getRandomCachedQuote`) -/

/-- The `while (cachedQuotes.length > CONFIG.maxCacheSize) cachedQuotes.shift()`
loop of `saveQuoteToCache`: repeatedly remove the front element while the
length exceeds the bound. -/
def trimToMax (maxSize : Nat) : List Quote → List Quote
  | [] => []
  | q :: rest => if (q :: rest).length > maxSize then trimToMax maxSize rest else q :: rest

/-- `saveQuoteToCache` from src/script.js, instrumented with a flag recording
whether `localStorage.setItem` was executed.  The first component is the new
cache contents, the second is `true` iff a write to persistent storage
happened.  The duplicate check compares `cached.text === quote.text`. -/
def saveQuoteToCacheEff (cachedQuotes : List Quote) (quote : Quote) :
    List Quote × Bool :=
  if cachedQuotes.any fun cached => cached.text == quote.text then
    (cachedQuotes, false)
  else
    (trimToMax CONFIG.maxCacheSize (cachedQuotes ++ [quote]), true)

/-- The cache contents after `saveQuoteToCache`. -/
def saveQuoteToCache (cachedQuotes : List Quote) (quote : Quote) : List Quote :=
  (saveQuoteToCacheEff cachedQuotes quote).1

/-- `getRandomCachedQuote` from src/script.js: `null` when the cache is
empty, otherwise the entry at a random index in `[0, length)`. -/
def getRandomCachedQuote (cachedQuotes : List Quote) (rand : Nat) : Option Quote :=
  if cachedQuotes.length = 0 then none
  else cachedQuotes.get? (rand % cachedQuotes.length)

/-! ## Static Fallback Dataset Loader (`fetchFallbackQuotes`, `getRandomFallbackQuote`) -/

/-- What the `fetch` of `quotes.json` observes: a load/parse failure, or a
parsed JSON document whose `quotes` field may be missing. -/
inductive DatasetEnv where
  | loadFail
  | loaded (quotes : Option (List ZenRecord))
deriving DecidableEq, Repr

/-- `fetchFallbackQuotes` from src/script.js: `data.quotes || []` on success,
`[]` on any load or parse failure. -/
def fetchFallbackQuotes : DatasetEnv → List ZenRecord
  | .loadFail => []
  | .loaded quotes => quotes.getD []

/-- `getRandomFallbackQuote` from src/script.js: `null` when the dataset is
empty, otherwise the record at a random index converted to the app format
`{text: quote.q, author: quote.a}` (no author normalization here). -/
def getRandomFallbackQuote (dataset : DatasetEnv) (rand : Nat) : Option Quote :=
  let fallbackQuotes := fetchFallbackQuotes dataset
  if fallbackQuotes.length = 0 then none
  else
    match fallbackQuotes.get? (rand % fallbackQuotes.length) with
    | none => none
    | some quote => some { text := quote.q, author := quote.a }

/-- `getQuoteFromFallback` from src/script.js, instrumented with a flag
recording whether the static dataset loader was invoked: the cache is tried
first; only when the cache sample is `null` is the fallback JSON file tried. -/
def getQuoteFromFallback (cache : List Quote) (cacheRand : Nat)
    (dataset : DatasetEnv) (datasetRand : Nat) : Option Quote × Bool :=
  match getRandomCachedQuote cache cacheRand with
  | some cachedQuote => (some cachedQuote, false)
  | none => (getRandomFallbackQuote dataset datasetRand, true)

/-! ## Relay-Chained Fetcher (`tryFetchWithProxy`, `fetchQuoteFromApi`) -/

/-- What one relay attempt observes: a network error or timeout (the `fetch`
promise rejects or the request is aborted), or a response with an HTTP
success flag (`response.ok`) and a body; `none` as the body means
`response.json()` fails (invalid JSON), and a non-array JSON document is
covered by the empty list (its element `0` is absent). -/
inductive AttemptEnv where
  | netFail
  | response (ok : Bool) (body : Option (List ZenRecord))
deriving DecidableEq, Repr

/-- The distinct ways a single relay attempt fails in `tryFetchWithProxy`. -/
inductive FetchErr where
  | network
  | httpStatus
  | badJson
  | typeError
  | rateLimited
  | allProxiesFailed
deriving DecidableEq, Repr

/-- `pat` occurs as a contiguous substring of `l`
(JavaScript `String.prototype.includes` on the character lists). -/
def listIncludes (pat : List Char) : List Char → Bool
  | [] => pat.isEmpty
  | c :: rest => pat.isPrefixOf (c :: rest) || listIncludes pat rest

/-- `s.toLowerCase()` at the character-list level (`Char.toLower` handles the
basic latin range, which covers the ASCII rate-limit pattern). -/
def lowerData (s : String) : List Char := s.data.map Char.toLower

/-- JavaScript `s.includes(pat)` on the lists of characters. -/
def strIncludes (s pat : String) : Bool := listIncludes pat.data s.data

/-- The content-level rate-limit check of `tryFetchWithProxy`:
`quote.q && quote.q.toLowerCase().includes('too many requests')`.
A missing `q` is falsy, so the check is skipped; an empty `q` is also falsy,
and indeed an empty string contains no non-empty substring. -/
def rateLimitSignal : Option String → Bool
  | none => false
  | some q => !(q == "") && listIncludes "too many requests".data (lowerData q)

/-- The author-cleaning step of `tryFetchWithProxy`:
`if (!author || author === 'zenquotes.io' || author === 'type.fit') author = 'Unknown'`.
A missing value and the empty string are falsy. -/
def normalizeAuthor : Option String → String
  | none => "Unknown"
  | some author =>
      if author = "" ∨ author = "zenquotes.io" ∨ author = "type.fit" then "Unknown"
      else author

/-- `tryFetchWithProxy` from src/script.js for one relay, as a function of
what the attempt observes.  A thrown error is an `Except.error`; note that
when the parsed array is empty, reading `quote.q` of `undefined` throws a
`TypeError`, while a present first element with a missing `q` does not. -/
def tryFetchWithProxy : AttemptEnv → Except FetchErr Quote
  | .netFail => .error .network
  | .response ok body =>
      if !ok then .error .httpStatus
      else
        match body with
        | none => .error .badJson
        | some data =>
            match data.head? with
            | none => .error .typeError
            | some quote =>
                if rateLimitSignal quote.q then .error .rateLimited
                else .ok { text := quote.q, author := some (normalizeAuthor quote.a) }

/-- The proxy loop of `fetchQuoteFromApi`, carrying `lastError`.  The first
component is the trace of attempts actually made, in order (one entry per
relay attempted, holding that attempt's outcome); the second component is
the overall result: the first success, or `lastError` (defaulting to
`'All proxies failed'`) once every relay in the list has failed. -/
def fetchFrom : List AttemptEnv → Option FetchErr →
    List (Except FetchErr Quote) × Except FetchErr Quote
  | [], lastError => ([], .error (lastError.getD .allProxiesFailed))
  | e :: rest, _ =>
      match tryFetchWithProxy e with
      | .ok quote => ([Except.ok quote], .ok quote)
      | .error err =>
          let r := fetchFrom rest (some err)
          (Except.error err :: r.1, r.2)

/-- `fetchQuoteFromApi` from src/script.js: try all relays sequentially,
first success wins. -/
def fetchQuoteFromApi (relays : List AttemptEnv) :
    List (Except FetchErr Quote) × Except FetchErr Quote :=
  fetchFrom relays none

/-! ## Translation Adapter (`translateText`) -/

/-- The nested `responseData` object of a MyMemory reply; its
`translatedText` field may be missing. -/
structure TransData where
  translatedText : Option String
deriving DecidableEq, Repr

/-- A parsed MyMemory reply: `responseStatus` and `responseData` may each be
missing. -/
structure TransPayload where
  responseStatus : Option Int
  responseData : Option TransData
deriving DecidableEq, Repr

/-- What the translation request observes: a network error, or a response
with an HTTP success flag and a body (`none` = invalid JSON). -/
inductive TranslateEnv where
  | netFail
  | response (ok : Bool) (body : Option TransPayload)
deriving DecidableEq, Repr

/-- `translateText` from src/script.js.  Every thrown error is caught inside
the function and the original `text` is returned; when the payload passes
`data.responseStatus === 200 && data.responseData`, the function returns
`data.responseData.translatedText` — which is absent when that field is
missing.  The language parameters only shape the request URL. -/
def translateText (text : Option String) (_fromLang _toLang : String)
    (env : TranslateEnv) : Option String :=
  match env with
  | .netFail => text
  | .response ok body =>
      if !ok then text
      else
        match body with
        | none => text
        | some data =>
            if data.responseStatus = some 200 ∧ data.responseData.isSome then
              data.responseData.bind TransData.translatedText
            else text

/-! ## Quote Acquisition Orchestrator (`getQuote`) -/

/-- The slice of the global `state` object that `getQuote` reads and writes. -/
structure AppState where
  isLoading : Bool
  currentLanguage : String
  currentQuote : Option String
  currentAuthor : Option String
deriving DecidableEq, Repr

/-- Everything the outside world supplies to one `getQuote` invocation. -/
structure QuoteEnv where
  relays : List AttemptEnv
  cache : List Quote
  cacheRand : Nat
  dataset : DatasetEnv
  datasetRand : Nat
  translate : TranslateEnv
deriving DecidableEq, Repr

/-- The user-visible outcome of one `getQuote` invocation: dropped by the
in-flight guard, `displayQuote(text, author)`, or `displayError()`. -/
inductive Outcome where
  | dropped
  | shown (text : Option String) (author : Option String)
  | failed
deriving DecidableEq, Repr

deriving instance DecidableEq for Except

/-- The full observable effect of one `getQuote` invocation. -/
structure GetQuoteResult where
  state : AppState
  outcome : Outcome
  /-- outcomes of the relay attempts actually made, in order -/
  fetchTrace : List (Except FetchErr Quote)
  /-- whether the static fallback dataset loader was invoked -/
  datasetInvoked : Bool
  /-- the `quote` local variable at display time (before translation) -/
  sourceQuote : Option Quote
  isFromFallback : Bool
  cacheAfter : List Quote
  /-- whether `localStorage.setItem` ran for the quote cache -/
  cacheWrite : Bool
deriving DecidableEq, Repr

/-- `getQuote` from src/script.js.  A second invocation while `isLoading`
is a no-op; otherwise fetch via the relay chain, cache on success, fall
back to cache then dataset on failure, translate when the active language
is `'tr'`, and always release the loading flag. -/
def getQuote (s : AppState) (env : QuoteEnv) : GetQuoteResult :=
  if s.isLoading then
    { state := s, outcome := .dropped, fetchTrace := [], datasetInvoked := false,
      sourceQuote := none, isFromFallback := false,
      cacheAfter := env.cache, cacheWrite := false }
  else
    let fetched := fetchQuoteFromApi env.relays
    match fetched.2 with
    | .ok quote =>
        let saved := saveQuoteToCacheEff env.cache quote
        let displayText :=
          if s.currentLanguage == "tr" then translateText quote.text "en" "tr" env.translate
          else quote.text
        { state := { s with isLoading := false,
                            currentQuote := displayText, currentAuthor := quote.author },
          outcome := .shown displayText quote.author,
          fetchTrace := fetched.1, datasetInvoked := false,
          sourceQuote := some quote, isFromFallback := false,
          cacheAfter := saved.1, cacheWrite := saved.2 }
    | .error _ =>
        let fb := getQuoteFromFallback env.cache env.cacheRand env.dataset env.datasetRand
        match fb.1 with
        | some quote =>
            let displayText :=
              if s.currentLanguage == "tr" then translateText quote.text "en" "tr" env.translate
              else quote.text
            { state := { s with isLoading := false,
                                currentQuote := displayText, currentAuthor := quote.author },
              outcome := .shown displayText quote.author,
              fetchTrace := fetched.1, datasetInvoked := fb.2,
              sourceQuote := some quote, isFromFallback := true,
              cacheAfter := env.cache, cacheWrite := false }
        | none =>
            { state := { s with isLoading := false },
              outcome := .failed,
              fetchTrace := fetched.1, datasetInvoked := fb.2,
              sourceQuote := none, isFromFallback := true,
              cacheAfter := env.cache, cacheWrite := false }

/-! ## Sanity checks on the cache model -/

example : saveQuoteToCache [] ⟨some "a", some "b"⟩ = [⟨some "a", some "b"⟩] := by decide

example : saveQuoteToCache [⟨some "a", some "b"⟩] ⟨some "a", some "c"⟩
    = [⟨some "a", some "b"⟩] := by decide

example : getRandomCachedQuote [] 3 = none := by decide

example : getRandomCachedQuote [⟨some "a", none⟩, ⟨some "b", none⟩] 5
    = some ⟨some "b", none⟩ := by decide

-- The example scenario from the specification: relay A times out, relay B
-- answers with a placeholder author.
example : fetchQuoteFromApi
    [.netFail, .response true (some [⟨some "Be yourself.", some "zenquotes.io"⟩])]
    = ([.error .network, .ok ⟨some "Be yourself.", some "Unknown"⟩],
       .ok ⟨some "Be yourself.", some "Unknown"⟩) := by decide

example : tryFetchWithProxy (.response true (some [⟨some "Too Many Requests!", none⟩]))
    = .error .rateLimited := by decide

example : tryFetchWithProxy (.response true (some [])) = .error .typeError := by decide

example : translateText (some "hi") "en" "tr"
    (.response true (some ⟨some 200, some ⟨some "selam"⟩⟩)) = some "selam" := by decide

example : translateText (some "hi") "en" "tr" (.response false (some ⟨some 200, some ⟨some "selam"⟩⟩))
    = some "hi" := by decide

-- The success-shaped payload with a missing translatedText field yields `none`.
example : translateText (some "hi") "en" "tr" (.response true (some ⟨some 200, some ⟨none⟩⟩))
    = none := by decide

/-! ## Lemmas about the persistent quote cache -/

theorem trimToMax_eq_drop (maxSize : Nat) (l : List Quote) :
    trimToMax maxSize l = l.drop (l.length - maxSize) := by
  induction l with
  | nil => simp [trimToMax]
  | cons q rest ih =>
      by_cases h : rest.length + 1 > maxSize
      · have hd : rest.length + 1 - maxSize = (rest.length - maxSize) + 1 := by omega
        simp only [trimToMax, List.length_cons, if_pos h, ih, hd, List.drop_succ_cons]
      · have hd : rest.length + 1 - maxSize = 0 := by omega
        simp only [trimToMax, List.length_cons, if_pos, if_neg h, hd, List.drop_zero]

theorem saveQuoteToCacheEff_of_dup (cache : List Quote) (q : Quote)
    (h : ∃ c ∈ cache, c.text = q.text) :
    saveQuoteToCacheEff cache q = (cache, false) := by
  have : cache.any (fun cached => cached.text == q.text) = true := by
    rcases h with ⟨c, hc, ht⟩
    exact List.any_eq_true.mpr ⟨c, hc, beq_iff_eq.mpr ht⟩
  simp [saveQuoteToCacheEff, this]

theorem saveQuoteToCache_of_fresh (cache : List Quote) (q : Quote)
    (h : ∀ c ∈ cache, c.text ≠ q.text) :
    saveQuoteToCache cache q
      = (cache ++ [q]).drop (cache.length + 1 - CONFIG.maxCacheSize) := by
  have hany : cache.any (fun cached => cached.text == q.text) = false := by
    rw [List.any_eq_false]
    intro c hc
    simpa using h c hc
  simp [saveQuoteToCache, saveQuoteToCacheEff, hany, trimToMax_eq_drop]

theorem saveQuoteToCache_length_le (cache : List Quote) (q : Quote)
    (h : cache.length ≤ CONFIG.maxCacheSize) :
    (saveQuoteToCache cache q).length ≤ CONFIG.maxCacheSize := by
  by_cases hd : ∃ c ∈ cache, c.text = q.text
  · have := saveQuoteToCacheEff_of_dup cache q hd
    simp only [saveQuoteToCache, this]
    exact h
  · push_neg at hd
    rw [saveQuoteToCache_of_fresh cache q hd]
    simp only [List.length_drop, List.length_append, List.length_cons,
      List.length_nil]
    omega

theorem foldl_save_length (qs : List Quote) (cache : List Quote)
    (h : cache.length ≤ CONFIG.maxCacheSize) :
    (qs.foldl saveQuoteToCache cache).length ≤ CONFIG.maxCacheSize := by
  induction qs generalizing cache with
  | nil => simpa using h
  | cons q rest ih =>
      simp only [List.foldl_cons]
      exact ih _ (saveQuoteToCache_length_le cache q h)

theorem saveQuoteToCache_textNodup (cache : List Quote) (q : Quote)
    (h : (cache.map Quote.text).Nodup) :
    ((saveQuoteToCache cache q).map Quote.text).Nodup := by
  by_cases hd : ∃ c ∈ cache, c.text = q.text
  · have := saveQuoteToCacheEff_of_dup cache q hd
    simpa [saveQuoteToCache, this] using h
  · push_neg at hd
    rw [saveQuoteToCache_of_fresh cache q hd, List.map_drop]
    refine (List.drop_sublist _ _).nodup ?_
    rw [List.map_append]
    refine List.Nodup.append h (by simp) ?_
    intro t ht ht'
    simp only [List.map_cons, List.map_nil, List.mem_singleton] at ht'
    rcases List.mem_map.mp ht with ⟨c, hc, rfl⟩
    exact hd c hc (ht' ▸ rfl)

theorem foldl_save_textNodup (qs : List Quote) (cache : List Quote)
    (h : (cache.map Quote.text).Nodup) :
    ((qs.foldl saveQuoteToCache cache).map Quote.text).Nodup := by
  induction qs generalizing cache with
  | nil => simpa using h
  | cons q rest ih =>
      simp only [List.foldl_cons]
      exact ih _ (saveQuoteToCache_textNodup cache q h)

/-- Starting from the empty cache, recording quotes with pairwise-distinct
texts keeps exactly the most recent `CONFIG.maxCacheSize` of them, oldest
evicted from the front. -/
theorem foldl_save_of_nodup (qs : List Quote) (h : (qs.map Quote.text).Nodup) :
    qs.foldl saveQuoteToCache [] = qs.drop (qs.length - CONFIG.maxCacheSize) := by
  induction qs using List.reverseRecOn with
  | nil => simp
  | append_singleton l a ih =>
      rw [List.map_append] at h
      have hl : (l.map Quote.text).Nodup := (List.nodup_append.mp h).1
      have ha : a.text ∉ l.map Quote.text := by
        intro hmem
        exact (List.nodup_append.mp h).2.2 hmem (by simp)
      rw [List.foldl_append, List.foldl_cons, List.foldl_nil, ih hl]
      have hfresh : ∀ c ∈ l.drop (l.length - CONFIG.maxCacheSize), c.text ≠ a.text := by
        intro c hc hct
        exact ha (hct ▸ List.mem_map_of_mem Quote.text ((List.drop_sublist _ _).mem hc))
      rw [saveQuoteToCache_of_fresh _ _ hfresh]
      have hlen : (l.drop (l.length - CONFIG.maxCacheSize)).length
          = l.length - (l.length - CONFIG.maxCacheSize) := List.length_drop _ _
      set n := l.length with hn
      set d := n - CONFIG.maxCacheSize with hdd
      have he : (l.drop d).length + 1 - CONFIG.maxCacheSize ≤ (l.drop d).length := by
        rw [hlen]
        simp only [CONFIG.maxCacheSize] at *
        omega
      rw [List.drop_append_of_le_length he, List.drop_drop]
      have harith : d + ((l.drop d).length + 1 - CONFIG.maxCacheSize)
          = n + 1 - CONFIG.maxCacheSize := by
        rw [hlen]
        simp only [CONFIG.maxCacheSize] at *
        omega
      have hr : n + 1 - CONFIG.maxCacheSize ≤ n := by
        simp only [CONFIG.maxCacheSize]
        omega
      rw [harith, List.drop_append_of_le_length (by simpa using hr)]
      simp

theorem countP_beq_of_nodup_mem {α : Type} [BEq α] [LawfulBEq α] (l : List α) (t : α)
    (hnd : l.Nodup) (hmem : t ∈ l) : l.countP (· == t) = 1 := by
  induction l with
  | nil => simp at hmem
  | cons a l ih =>
      rw [List.nodup_cons] at hnd
      rcases List.mem_cons.mp hmem with rfl | hm
      · have h0 : l.countP (· == t) = 0 :=
          List.countP_eq_zero.mpr fun b hb => by
            simp only [beq_iff_eq]
            rintro rfl
            exact hnd.1 hb
        simp [List.countP_cons, h0]
      · have hne : (a == t) = false := by
          simp only [beq_eq_false_iff_ne, ne_eq]
          rintro rfl
          exact hnd.1 hm
        simp [List.countP_cons, hne, ih hnd.2 hm]

theorem countP_text_eq_one (cache : List Quote) (t : Option String)
    (hnd : (cache.map Quote.text).Nodup) (hmem : t ∈ cache.map Quote.text) :
    cache.countP (fun c => c.text == t) = 1 := by
  have h1 : (cache.map Quote.text).countP (· == t)
      = cache.countP (fun c => c.text == t) := List.countP_map _ _ _
  rw [← h1]
  exact countP_beq_of_nodup_mem _ t hnd hmem

theorem saveQuoteToCache_countP (cache : List Quote) (q : Quote)
    (hnd : (cache.map Quote.text).Nodup) :
    (saveQuoteToCache cache q).countP (fun c => c.text == q.text) = 1 := by
  by_cases hd : ∃ c ∈ cache, c.text = q.text
  · rw [saveQuoteToCache, saveQuoteToCacheEff_of_dup cache q hd]
    rcases hd with ⟨c, hc, ht⟩
    exact countP_text_eq_one cache q.text hnd (ht ▸ List.mem_map_of_mem Quote.text hc)
  · push_neg at hd
    rw [saveQuoteToCache_of_fresh cache q hd]
    have hk : cache.length + 1 - CONFIG.maxCacheSize ≤ cache.length := by
      simp only [CONFIG.maxCacheSize]
      omega
    rw [List.drop_append_of_le_length hk, List.countP_append]
    have h0 : (cache.drop (cache.length + 1 - CONFIG.maxCacheSize)).countP
        (fun c => c.text == q.text) = 0 :=
      List.countP_eq_zero.mpr fun c hc => by
        simpa using hd c ((List.drop_sublist _ _).mem hc)
    simp [h0, List.countP_cons]

/-- The text of a freshly recorded quote is present in the cache afterwards
(the fresh quote is appended at the back, eviction only removes from the
front, and the bound is positive). -/
theorem saveQuoteToCache_mem_text (cache : List Quote) (q : Quote) :
    q.text ∈ (saveQuoteToCache cache q).map Quote.text := by
  by_cases hd : ∃ c ∈ cache, c.text = q.text
  · rw [saveQuoteToCache, saveQuoteToCacheEff_of_dup cache q hd]
    rcases hd with ⟨c, hc, ht⟩
    exact ht ▸ List.mem_map_of_mem Quote.text hc
  · push_neg at hd
    rw [saveQuoteToCache_of_fresh cache q hd]
    have hk : cache.length + 1 - CONFIG.maxCacheSize ≤ cache.length := by
      simp only [CONFIG.maxCacheSize]
      omega
    rw [List.drop_append_of_le_length hk]
    simp

theorem saveQuoteToCache_twice (cache : List Quote) (q q' : Quote)
    (ht : q'.text = q.text) :
    saveQuoteToCache (saveQuoteToCache cache q) q' = saveQuoteToCache cache q := by
  rcases List.mem_map.mp (saveQuoteToCache_mem_text cache q) with ⟨c, hc, hct⟩
  rw [saveQuoteToCache, saveQuoteToCacheEff_of_dup _ q' ⟨c, hc, by rw [hct, ht]⟩]

/-! ## Claim theorems about the cache -/

/-- Claim C3: starting from any cache with at most `CONFIG.maxCacheSize` entries,
any sequence of record operations leaves at most `CONFIG.maxCacheSize`
entries; and recording `CONFIG.maxCacheSize + 5` quotes with distinct texts
into an empty cache leaves exactly `CONFIG.maxCacheSize` entries, namely the
most recently recorded ones, with the oldest 5 evicted from the front. -/
theorem cache_bound_and_eviction :
    (∀ cache qs : List Quote, cache.length ≤ CONFIG.maxCacheSize →
        (qs.foldl saveQuoteToCache cache).length ≤ CONFIG.maxCacheSize)
    ∧ (∀ qs : List Quote, (qs.map Quote.text).Nodup →
        qs.length = CONFIG.maxCacheSize + 5 →
        qs.foldl saveQuoteToCache [] = qs.drop 5
        ∧ (qs.foldl saveQuoteToCache []).length = CONFIG.maxCacheSize) := by
  constructor
  · intro cache qs h
    exact foldl_save_length qs cache h
  · intro qs hnd hlen
    have heq := foldl_save_of_nodup qs hnd
    rw [hlen] at heq
    have h5 : CONFIG.maxCacheSize + 5 - CONFIG.maxCacheSize = 5 := by omega
    rw [h5] at heq
    refine ⟨heq, ?_⟩
    rw [heq, List.length_drop, hlen]
    omega

/-- A family of quotes with pairwise-distinct texts, used to instantiate the
cache theorems. -/
def distinctQuotes (n : Nat) : List Quote :=
  (List.range n).map fun i => ⟨some (Nat.repr i), none⟩

/-- Witness for `cache_bound_and_eviction` at concrete inputs. -/
theorem cache_bound_and_eviction_witness :
    (((distinctQuotes 3).foldl saveQuoteToCache []).length ≤ CONFIG.maxCacheSize)
    ∧ (distinctQuotes 105).foldl saveQuoteToCache [] = (distinctQuotes 105).drop 5 :=
  ⟨cache_bound_and_eviction.1 [] (distinctQuotes 3) (by decide),
   ((cache_bound_and_eviction.2 (distinctQuotes 105) (by decide) (by decide)).1)⟩

/-- Claim C4: over caches with no duplicate text, recording the same text twice
(even with a different author) leaves the cache with exactly one entry for
that text and the second record is a no-op; and no sequence of record
operations ever produces two coexisting entries with equal text. -/
theorem cache_dedup :
    (∀ (cache : List Quote) (q q' : Quote), (cache.map Quote.text).Nodup →
        q'.text = q.text →
        saveQuoteToCache (saveQuoteToCache cache q) q' = saveQuoteToCache cache q
        ∧ (saveQuoteToCache (saveQuoteToCache cache q) q').countP
            (fun c => c.text == q.text) = 1)
    ∧ (∀ cache qs : List Quote, (cache.map Quote.text).Nodup →
        ((qs.foldl saveQuoteToCache cache).map Quote.text).Nodup) := by
  refine ⟨fun cache q q' hnd ht => ?_, fun cache qs hnd => foldl_save_textNodup qs cache hnd⟩
  have h2 := saveQuoteToCache_twice cache q q' ht
  exact ⟨h2, by rw [h2]; exact saveQuoteToCache_countP cache q hnd⟩

/-- Witness for `cache_dedup` at concrete inputs. -/
theorem cache_dedup_witness :
    (saveQuoteToCache (saveQuoteToCache [] ⟨some "t", some "A"⟩) ⟨some "t", some "B"⟩
        = saveQuoteToCache [] ⟨some "t", some "A"⟩
      ∧ (saveQuoteToCache (saveQuoteToCache [] ⟨some "t", some "A"⟩) ⟨some "t", some "B"⟩).countP
          (fun c => c.text == (Quote.mk (some "t") (some "A")).text) = 1)
    ∧ ((([⟨some "u", none⟩, ⟨some "v", none⟩] :
          List Quote).foldl saveQuoteToCache []).map Quote.text).Nodup :=
  ⟨cache_dedup.1 [] ⟨some "t", some "A"⟩ ⟨some "t", some "B"⟩ (by decide) (by decide),
   cache_dedup.2 [] [⟨some "u", none⟩, ⟨some "v", none⟩] (by decide)⟩

/-- Claim C10: recording a quote whose text already exists in the cache leaves the
cache completely unchanged (same entries, same order, authors untouched) and
performs no write to persistent storage (`localStorage.setItem` is not
executed). -/
theorem cache_duplicate_frame (cache : List Quote) (q : Quote)
    (h : ∃ c ∈ cache, c.text = q.text) :
    saveQuoteToCacheEff cache q = (cache, false) :=
  saveQuoteToCacheEff_of_dup cache q h

/-- Witness for `cache_duplicate_frame`: same text, different author. -/
theorem cache_duplicate_frame_witness :
    saveQuoteToCacheEff [⟨some "a", some "X"⟩] ⟨some "a", some "Y"⟩
      = ([⟨some "a", some "X"⟩], false) :=
  cache_duplicate_frame [⟨some "a", some "X"⟩] ⟨some "a", some "Y"⟩ (by decide)

/-! ## Lemmas and claim theorems about the relay-chained fetcher -/

/-- The quote produced by a fetch result, forgetting which error occurred. -/
def fetchResultQuote : Except FetchErr Quote → Option Quote
  | .ok q => some q
  | .error _ => none

/-- The `lastError` accumulator influences neither the trace of attempts nor
whether (and which) quote is produced. -/
theorem fetchFrom_lastError_irrel (envs : List AttemptEnv) (e1 e2 : Option FetchErr) :
    (fetchFrom envs e1).1 = (fetchFrom envs e2).1
    ∧ fetchResultQuote (fetchFrom envs e1).2 = fetchResultQuote (fetchFrom envs e2).2 := by
  cases envs with
  | nil => simp [fetchFrom, fetchResultQuote]
  | cons e rest => simp [fetchFrom]

/-- The proxy loop after a failing prefix: every attempt of the prefix is
made, in order, and the first success is returned. -/
theorem fetchFrom_prefix_fail (se : AttemptEnv) (rest : List AttemptEnv) (q : Quote)
    (hse : tryFetchWithProxy se = .ok q) :
    ∀ (pre : List AttemptEnv) (le : Option FetchErr),
      (∀ e ∈ pre, ∃ err, tryFetchWithProxy e = .error err) →
      fetchFrom (pre ++ se :: rest) le = ((pre ++ [se]).map tryFetchWithProxy, .ok q) := by
  intro pre
  induction pre with
  | nil =>
      intro le _
      simp [fetchFrom, hse]
  | cons e pre ih =>
      intro le hp
      rcases hp e (by simp) with ⟨err, herr⟩
      have hrec := ih (some err) fun x hx => hp x (by simp [hx])
      simp [fetchFrom, herr, hrec]

/-- Claim C1: when the first `M` relays fail (for any reason: timeout, network
error, non-success status, bad body, or rate-limit signal) and relay `M+1`
succeeds, the fetcher attempts exactly relays `1..M+1`, in order, one attempt
each, and returns the quote produced by relay `M+1`. -/
theorem relay_ordering (pre : List AttemptEnv) (se : AttemptEnv)
    (rest : List AttemptEnv) (q : Quote)
    (hpre : ∀ e ∈ pre, ∃ err, tryFetchWithProxy e = .error err)
    (hse : tryFetchWithProxy se = .ok q) :
    fetchQuoteFromApi (pre ++ se :: rest)
      = ((pre ++ [se]).map tryFetchWithProxy, .ok q)
    ∧ (fetchQuoteFromApi (pre ++ se :: rest)).1.length = pre.length + 1 := by
  have h := fetchFrom_prefix_fail se rest q hse pre none hpre
  exact ⟨h, by rw [fetchQuoteFromApi, h]; simp⟩

/-- Witness for `relay_ordering`: the spec's example scenario, relay A dead,
relay B succeeding with a placeholder author, plus an untried third relay. -/
theorem relay_ordering_witness :
    fetchQuoteFromApi ([AttemptEnv.netFail]
        ++ (AttemptEnv.response true (some [⟨some "Be yourself.", some "zenquotes.io"⟩]))
          :: [AttemptEnv.netFail])
      = (([AttemptEnv.netFail]
            ++ [AttemptEnv.response true (some [⟨some "Be yourself.", some "zenquotes.io"⟩])]).map
            tryFetchWithProxy,
         .ok ⟨some "Be yourself.", some "Unknown"⟩) :=
  (relay_ordering [.netFail]
    (.response true (some [⟨some "Be yourself.", some "zenquotes.io"⟩]))
    [.netFail] ⟨some "Be yourself.", some "Unknown"⟩
    (fun e he => by
      rw [List.mem_singleton] at he
      subst he
      exact ⟨.network, rfl⟩)
    (by decide)).1

/-- Claim C6: author normalization — absent, empty, and denylisted values are
replaced by the sentinel; any other non-empty value passes through; the
normalization is idempotent. -/
theorem author_normalization :
    normalizeAuthor none = "Unknown"
    ∧ normalizeAuthor (some "") = "Unknown"
    ∧ normalizeAuthor (some "zenquotes.io") = "Unknown"
    ∧ normalizeAuthor (some "type.fit") = "Unknown"
    ∧ (∀ s : String, s ≠ "" → s ≠ "zenquotes.io" → s ≠ "type.fit" →
        normalizeAuthor (some s) = s)
    ∧ (∀ a : Option String,
        normalizeAuthor (some (normalizeAuthor a)) = normalizeAuthor a) := by
  refine ⟨rfl, by decide, by decide, by decide, fun s h1 h2 h3 => ?_, fun a => ?_⟩
  · rw [normalizeAuthor, if_neg]
    simp [h1, h2, h3]
  · rcases a with _ | s
    · decide
    · by_cases hc : s = "" ∨ s = "zenquotes.io" ∨ s = "type.fit"
      · have h1 : normalizeAuthor (some s) = "Unknown" := by
          rw [normalizeAuthor, if_pos hc]
        rw [h1]
        decide
      · have h1 : normalizeAuthor (some s) = s := by
          rw [normalizeAuthor, if_neg hc]
        rw [h1]
        exact h1

/-- Witness for `author_normalization` at concrete inputs. -/
theorem author_normalization_witness :
    normalizeAuthor (some "Rumi") = "Rumi"
    ∧ normalizeAuthor (some (normalizeAuthor (some "zenquotes.io")))
        = normalizeAuthor (some "zenquotes.io") :=
  ⟨author_normalization.2.2.2.2.1 "Rumi" (by decide) (by decide) (by decide),
   author_normalization.2.2.2.2.2 (some "zenquotes.io")⟩

/-- Claim C7 counterexample: a success-status, valid-JSON response whose first
element lacks `q` is NOT treated as a failure — `tryFetchWithProxy` returns a
successful quote record whose text field is absent (the rate-limit check
`quote.q && ...` skips a missing `q`, and nothing else validates it). -/
theorem fetch_missing_text_counterexample :
    tryFetchWithProxy (.response true (some [⟨none, some "X"⟩]))
      = .ok ⟨none, some "X"⟩ := by decide

/-- Claim C7 amended: when the response array has no first element at all, the
attempt fails (reading `quote.q` of `undefined` throws); but when the first
element exists and lacks the string field `q`, the attempt succeeds and the
fetcher returns a quote record with an absent text field (and a normalized
author), so a returned quote need not have a text field. -/
theorem fetch_missing_text_amended :
    tryFetchWithProxy (.response true (some [])) = .error .typeError
    ∧ (∀ (a : Option String) (rest : List ZenRecord),
        tryFetchWithProxy (.response true (some (⟨none, a⟩ :: rest)))
          = .ok ⟨none, some (normalizeAuthor a)⟩) := by
  refine ⟨rfl, fun a rest => ?_⟩
  simp [tryFetchWithProxy, rateLimitSignal]

/-- One step of the proxy loop on a failing attempt: the failure is recorded
in the trace and the loop advances to the remaining relays with the failure
as the new `lastError`. -/
theorem fetchFrom_cons_error (e : AttemptEnv) (rest : List AttemptEnv)
    (le : Option FetchErr) (err : FetchErr) (he : tryFetchWithProxy e = .error err) :
    fetchFrom (e :: rest) le
      = (.error err :: (fetchFrom rest (some err)).1, (fetchFrom rest (some err)).2) := by
  simp [fetchFrom, he]

/-- Claim C8: a success-status response whose quote text contains the phrase
"too many requests" case-insensitively is a failure for that relay: the
attempt errors, the fetcher advances to the next relay, and both the number
of attempts made and the quote eventually produced are exactly as if the
relay had suffered a transport failure. -/
theorem rate_limit_advance (t : String) (a : Option String) (rest0 : List ZenRecord)
    (rest : List AttemptEnv)
    (ht : listIncludes "too many requests".data (lowerData t) = true) :
    tryFetchWithProxy (.response true (some (⟨some t, a⟩ :: rest0))) = .error .rateLimited
    ∧ (fetchQuoteFromApi ((.response true (some (⟨some t, a⟩ :: rest0))) :: rest)).1
        = .error .rateLimited :: (fetchFrom rest (some .rateLimited)).1
    ∧ (fetchQuoteFromApi ((.response true (some (⟨some t, a⟩ :: rest0))) :: rest)).1.length
        = (fetchQuoteFromApi (.netFail :: rest)).1.length
    ∧ fetchResultQuote (fetchQuoteFromApi ((.response true (some (⟨some t, a⟩ :: rest0))) :: rest)).2
        = fetchResultQuote (fetchQuoteFromApi (.netFail :: rest)).2 := by
  have hne : (t == "") = false := by
    rcases hb : t == "" with _ | _
    · rfl
    · rw [beq_iff_eq] at hb
      subst hb
      exact absurd ht (by decide)
  have hsig : rateLimitSignal (some t) = true := by
    simp [rateLimitSignal, hne, ht]
  have htf : tryFetchWithProxy (.response true (some (⟨some t, a⟩ :: rest0)))
      = .error .rateLimited := by
    simp [tryFetchWithProxy, hsig]
  have hl := (fetchFrom_lastError_irrel rest (some .rateLimited) (some .network)).1
  have hq := (fetchFrom_lastError_irrel rest (some .rateLimited) (some .network)).2
  have hnet : tryFetchWithProxy AttemptEnv.netFail = Except.error FetchErr.network := rfl
  have hA := fetchFrom_cons_error (.response true (some (⟨some t, a⟩ :: rest0)))
    rest none FetchErr.rateLimited htf
  have hB := fetchFrom_cons_error .netFail rest none FetchErr.network hnet
  refine ⟨htf, ?_, ?_, ?_⟩
  · rw [fetchQuoteFromApi, hA]
  · rw [fetchQuoteFromApi, hA, fetchQuoteFromApi, hB]
    simp [hl]
  · rw [fetchQuoteFromApi, hA, fetchQuoteFromApi, hB]
    simpa using hq

/-- Witness for `rate_limit_advance` at a concrete rate-limited response. -/
theorem rate_limit_advance_witness :
    tryFetchWithProxy (.response true (some [⟨some "Too Many Requests: slow down", none⟩]))
      = .error .rateLimited :=
  (rate_limit_advance "Too Many Requests: slow down" none [] [] (by decide)).1

/-! ## Claim theorems about the translation adapter -/

/-- Claim C5 counterexample: a response whose payload reports success status with a
`responseData` object present but no `translatedText` field is a malformed
response, yet `translateText` does not return the original text: it returns
`data.responseData.translatedText`, i.e. an absent value (`undefined`), which
is not a usable string either. -/
theorem translate_malformed_success_counterexample :
    translateText (some "hi") "en" "tr"
        (.response true (some ⟨some 200, some ⟨none⟩⟩)) = none
    ∧ translateText (some "hi") "en" "tr"
        (.response true (some ⟨some 200, some ⟨none⟩⟩)) ≠ some "hi" := by
  exact ⟨rfl, by decide⟩

/-- Claim C5 amended: on every outcome the code treats as a failure — network
error, non-success HTTP status, invalid JSON, or a payload that does not
report `responseStatus` 200 with a `responseData` object present — the
adapter returns the original text unchanged and raises no error; but on a
payload that does report success with `responseData` present, the adapter
returns that object's `translatedText` field, which is absent when the field
is missing, so the adapter does not always return a string. -/
theorem translate_passthrough_amended :
    (∀ (text : Option String) (fromLang toLang : String) (env : TranslateEnv),
        (env = .netFail
          ∨ (∃ body, env = .response false body)
          ∨ env = .response true none
          ∨ (∃ data, env = .response true (some data)
              ∧ ¬(data.responseStatus = some 200 ∧ data.responseData.isSome))) →
        translateText text fromLang toLang env = text)
    ∧ (∀ (text : Option String) (fromLang toLang : String) (data : TransPayload),
        data.responseStatus = some 200 → data.responseData.isSome = true →
        translateText text fromLang toLang (.response true (some data))
          = data.responseData.bind TransData.translatedText) := by
  constructor
  · intro text fromLang toLang env hfail
    rcases hfail with rfl | ⟨body, rfl⟩ | rfl | ⟨data, rfl, hd⟩
    · rfl
    · simp [translateText]
    · rfl
    · simp only [translateText, Bool.not_true, Bool.false_eq_true, if_false,
        if_neg hd]
  · intro text fromLang toLang data h200 hdata
    simp [translateText, h200, hdata]

/-- Witness for `translate_passthrough_amended`: a Unicode text passed
through unchanged on a network failure, and a successful translation. -/
theorem translate_passthrough_amended_witness :
    translateText (some "Gidin, kendinizi arayın — ✓ ünïcode") "en" "tr" .netFail
      = some "Gidin, kendinizi arayın — ✓ ünïcode"
    ∧ translateText (some "hello") "en" "tr"
        (.response true (some ⟨some 200, some ⟨some "merhaba"⟩⟩))
      = (some (TransData.mk (some "merhaba"))).bind TransData.translatedText :=
  ⟨translate_passthrough_amended.1 (some "Gidin, kendinizi arayın — ✓ ünïcode")
      "en" "tr" .netFail (Or.inl rfl),
   translate_passthrough_amended.2 (some "hello") "en" "tr"
      ⟨some 200, some ⟨some "merhaba"⟩⟩ rfl rfl⟩

/-! ## Lemmas and claim theorems about the orchestrator -/

theorem getRandomCachedQuote_of_ne (cache : List Quote) (r : Nat) (h : cache ≠ []) :
    ∃ q, getRandomCachedQuote cache r = some q
      ∧ cache.get? (r % cache.length) = some q ∧ q ∈ cache := by
  have hlen : cache.length ≠ 0 := fun hh => h (List.length_eq_zero.mp hh)
  have hlt : r % cache.length < cache.length := Nat.mod_lt _ (Nat.pos_of_ne_zero hlen)
  refine ⟨cache.get ⟨r % cache.length, hlt⟩, ?_, List.get?_eq_get hlt, List.get_mem _ _ _⟩
  simp only [getRandomCachedQuote, if_neg hlen, List.get?_eq_get hlt]

theorem getRandomFallbackQuote_eq_none_iff (ds : DatasetEnv) (r : Nat) :
    getRandomFallbackQuote ds r = none ↔ fetchFallbackQuotes ds = [] := by
  unfold getRandomFallbackQuote
  by_cases h : (fetchFallbackQuotes ds).length = 0
  · simp [h, List.length_eq_zero.mp h]
  · have hlt : r % (fetchFallbackQuotes ds).length < (fetchFallbackQuotes ds).length :=
      Nat.mod_lt _ (Nat.pos_of_ne_zero h)
    rw [if_neg h, List.get?_eq_get hlt]
    constructor
    · intro hh
      simp at hh
    · intro hh
      exact absurd (by rw [hh]; rfl : (fetchFallbackQuotes ds).length = 0) h

/-- Behaviour of the fallback chain: the cache is sampled first; the dataset
loader runs exactly when the cache is empty; the chain comes back empty
exactly when both sources are empty. -/
theorem getQuoteFromFallback_spec (cache : List Quote) (cr : Nat)
    (ds : DatasetEnv) (dr : Nat) :
    (cache ≠ [] →
      (getQuoteFromFallback cache cr ds dr).2 = false
      ∧ (getQuoteFromFallback cache cr ds dr).1 = cache.get? (cr % cache.length)
      ∧ ∃ q, (getQuoteFromFallback cache cr ds dr).1 = some q ∧ q ∈ cache)
    ∧ (cache = [] →
      (getQuoteFromFallback cache cr ds dr).2 = true
      ∧ (getQuoteFromFallback cache cr ds dr).1 = getRandomFallbackQuote ds dr)
    ∧ ((getQuoteFromFallback cache cr ds dr).1 = none
        ↔ cache = [] ∧ fetchFallbackQuotes ds = []) := by
  by_cases hc : cache = []
  · subst hc
    have hnone : getRandomCachedQuote [] cr = none := rfl
    refine ⟨fun h => absurd rfl h, fun _ => ?_, ?_⟩
    · simp [getQuoteFromFallback, hnone]
    · simp [getQuoteFromFallback, hnone, getRandomFallbackQuote_eq_none_iff]
  · obtain ⟨q, hq, hget, hmem⟩ := getRandomCachedQuote_of_ne cache cr hc
    have hpair : getQuoteFromFallback cache cr ds dr = (some q, false) := by
      simp only [getQuoteFromFallback, hq]
    refine ⟨fun _ => ?_, fun h => absurd h hc, ?_⟩
    · rw [hpair]
      exact ⟨rfl, hget.symm, q, rfl, hmem⟩
    · rw [hpair]
      simp [hc]

/-- `getQuote` when the relay chain has failed: the result is read off the
fallback chain, and the outcome is the failure display exactly when the
fallback chain is empty. -/
theorem getQuote_fetch_fail_proj (s : AppState) (env : QuoteEnv) (e : FetchErr)
    (hl : s.isLoading = false)
    (he : (fetchQuoteFromApi env.relays).2 = .error e) :
    (getQuote s env).datasetInvoked
        = (getQuoteFromFallback env.cache env.cacheRand env.dataset env.datasetRand).2
    ∧ (getQuote s env).sourceQuote
        = (getQuoteFromFallback env.cache env.cacheRand env.dataset env.datasetRand).1
    ∧ ((getQuote s env).outcome = .failed
        ↔ (getQuoteFromFallback env.cache env.cacheRand env.dataset env.datasetRand).1
            = none) := by
  rcases hfb : (getQuoteFromFallback env.cache env.cacheRand env.dataset env.datasetRand).1
    with _ | q
  · simp [getQuote, hl, he, hfb]
  · simp [getQuote, hl, he, hfb]

/-- `getQuote` when the relay chain has succeeded: the quote is shown, so the
outcome is never the failure display. -/
theorem getQuote_fetch_ok_outcome (s : AppState) (env : QuoteEnv) (q : Quote)
    (hl : s.isLoading = false)
    (hok : (fetchQuoteFromApi env.relays).2 = .ok q) :
    (getQuote s env).outcome
      = .shown (if s.currentLanguage == "tr"
          then translateText q.text "en" "tr" env.translate else q.text) q.author := by
  simp [getQuote, hl, hok]

/-- Claim C2: when the network fetch fails, a non-empty cache supplies the
quote and the dataset loader is never invoked; with an empty cache the
dataset loader is tried; and the explicit failure outcome occurs exactly
when fetch failed, the cache sample was empty and the dataset sample was
empty. -/
theorem fallback_order (s : AppState) (env : QuoteEnv)
    (hl : s.isLoading = false)
    (hf : ∃ e, (fetchQuoteFromApi env.relays).2 = .error e) :
    (env.cache ≠ [] →
      (getQuote s env).datasetInvoked = false
      ∧ (getQuote s env).sourceQuote = env.cache.get? (env.cacheRand % env.cache.length)
      ∧ ∃ q, (getQuote s env).sourceQuote = some q ∧ q ∈ env.cache)
    ∧ (env.cache = [] → (getQuote s env).datasetInvoked = true)
    ∧ ((getQuote s env).outcome = .failed
        ↔ env.cache = [] ∧ fetchFallbackQuotes env.dataset = [])
    ∧ (∀ (s2 : AppState) (env2 : QuoteEnv), s2.isLoading = false →
        (getQuote s2 env2).outcome = .failed →
        (∃ e, (fetchQuoteFromApi env2.relays).2 = .error e)
        ∧ env2.cache = [] ∧ fetchFallbackQuotes env2.dataset = []) := by
  obtain ⟨e, he⟩ := hf
  obtain ⟨hinv, hsrc, hfail⟩ := getQuote_fetch_fail_proj s env e hl he
  obtain ⟨hne, hnil, hempty⟩ :=
    getQuoteFromFallback_spec env.cache env.cacheRand env.dataset env.datasetRand
  refine ⟨fun hcne => ?_, fun hcnil => ?_, ?_, ?_⟩
  · obtain ⟨h1, h2, q, h3, h4⟩ := hne hcne
    exact ⟨hinv.trans h1, hsrc.trans h2, q, hsrc.trans h3, h4⟩
  · exact hinv.trans (hnil hcnil).1
  · exact hfail.trans hempty
  · intro s2 env2 hl2 hfail2
    rcases hres : (fetchQuoteFromApi env2.relays).2 with e2 | q2
    · obtain ⟨_, _, hfail2iff⟩ := getQuote_fetch_fail_proj s2 env2 e2 hl2 hres
      obtain ⟨_, _, hempty2⟩ :=
        getQuoteFromFallback_spec env2.cache env2.cacheRand env2.dataset env2.datasetRand
      exact ⟨⟨e2, rfl⟩, hempty2.mp (hfail2iff.mp hfail2)⟩
    · have := getQuote_fetch_ok_outcome s2 env2 q2 hl2 hres
      rw [this] at hfail2
      exact absurd hfail2 (by simp)

/-- A concrete environment used by the orchestrator witnesses: one dead
relay, a one-entry cache, a failing dataset load. -/
def envW : QuoteEnv :=
  { relays := [.netFail], cache := [⟨some "c", some "A"⟩], cacheRand := 0,
    dataset := .loadFail, datasetRand := 0, translate := .netFail }

/-- Witness for `fallback_order`: fetch fails, the cache is non-empty, so
the quote is cache-sourced and the dataset loader does not run. -/
theorem fallback_order_witness :
    (getQuote ⟨false, "en", none, none⟩ envW).datasetInvoked = false
    ∧ (getQuote ⟨false, "en", none, none⟩ envW).sourceQuote
        = envW.cache.get? (envW.cacheRand % envW.cache.length)
    ∧ ∃ q, (getQuote ⟨false, "en", none, none⟩ envW).sourceQuote = some q
        ∧ q ∈ envW.cache :=
  (fallback_order ⟨false, "en", none, none⟩ envW rfl ⟨.network, rfl⟩).1 (by decide)

/-- Claim C9: a `getQuote` invocation while a previous one is in flight is a
complete no-op (state unchanged, no relay attempt, no fallback access, no
cache write, nothing displayed); and every invocation that does run releases
the in-flight flag. -/
theorem reentrancy_guard (s : AppState) (env : QuoteEnv) :
    (s.isLoading = true →
      getQuote s env =
        { state := s, outcome := .dropped, fetchTrace := [], datasetInvoked := false,
          sourceQuote := none, isFromFallback := false,
          cacheAfter := env.cache, cacheWrite := false })
    ∧ (s.isLoading = false → (getQuote s env).state.isLoading = false) := by
  constructor
  · intro h
    simp [getQuote, h]
  · intro h
    rcases hres : (fetchQuoteFromApi env.relays).2 with e | q
    · rcases hfb : (getQuoteFromFallback env.cache env.cacheRand env.dataset
        env.datasetRand).1 with _ | q
      · simp [getQuote, h, hres, hfb]
      · simp [getQuote, h, hres, hfb]
    · simp [getQuote, h, hres]

/-- Witness for `reentrancy_guard` at a concrete state and environment. -/
theorem reentrancy_guard_witness :
    getQuote ⟨true, "en", some "old", some "Old"⟩ envW
      =
        { state := ⟨true, "en", some "old", some "Old"⟩, outcome := .dropped,
          fetchTrace := [], datasetInvoked := false, sourceQuote := none,
          isFromFallback := false, cacheAfter := envW.cache, cacheWrite := false }
    ∧ (getQuote ⟨false, "en", none, none⟩ envW).state.isLoading = false :=
  ⟨(reentrancy_guard ⟨true, "en", some "old", some "Old"⟩ envW).1 rfl,
   (reentrancy_guard ⟨false, "en", none, none⟩ envW).2 rfl⟩

end QuoteGen
